import Mathlib

set_option maxRecDepth 8000

deriving instance DecidableEq for Except

namespace Chess

/-- Colour of a piece, also used for the turn owner (src/lib.rs `Color`). -/
inductive Color where
  | White
  | Black
deriving DecidableEq, Repr

/-- A square reference carried by effects and move preconditions
(src `Position`): `Relative` offsets are resolved against the origin of the
triggering move, `Global` positions are literal squares. -/
inductive Position where
  | Relative : Int → Int → Position
  | Global : Nat → Nat → Position
deriving DecidableEq, Repr

/-- Side effect of a move on a square other than the destination
(src `Effect`). -/
inductive Effect where
  | Capture : Position → Effect
  | Move : Position → Position → Effect
deriving DecidableEq, Repr

/-- Overall game state (src/lib.rs `GameState`). -/
inductive GameState where
  | Running
  | Promote
  | Check
  | CheckMate
  | Stalemate
  | SomethingHasGoneTerriblyWrongMilord
deriving DecidableEq, Repr

/-- Comparison operator used by `PieceStatus.has_moved`
(src/piece_mod/move_mod.rs `Comparator`). -/
inductive Comparator where
  | MoreThan
  | AtLeast
  | Exactly
  | AtMost
  | LessThan
deriving DecidableEq, Repr

/-- Mirroring mode of a move template (src/piece_mod/move_mod.rs `Mirror`). -/
inductive Mirror where
  | Vertically
  | Horizontally
  | VerAndHor
deriving DecidableEq, Repr

/-- Declarative precondition on a referenced square
(src/piece_mod/move_mod.rs `PieceStatus`).  `rank = none` means the square
must be empty, `rank = some '0'` means any piece of any rank. -/
structure PieceStatus where
  board_pos : Option Nat × Option Nat
  relative_pos : Option (Int × Int)
  rank : Option Char
  color : Option Color
  has_moved : Option (Comparator × Nat)
  last_moved : Option Int
deriving DecidableEq, Repr

/-- One declarative move template (src/piece_mod/move_mod.rs `Move`). -/
structure Move where
  maximum_slide : Option Nat
  minimum_slide : Nat
  directions : List (Int × Int)
  can_capture : Bool
  color : Color
  mirror : Option Mirror
  requirements : List PieceStatus
  command : Option String
  effect : List Effect
  safe_throughout : Bool
deriving DecidableEq, Repr

/-- A chess piece (src/piece_mod.rs `Piece`). -/
structure Piece where
  rank : Char
  color : Color
  is_crucial : Bool
  can_promote : Bool
  last_moved : Option Nat
  times_moved : Nat
  moves : List Move
deriving DecidableEq, Repr

/-- The whole engine state (src/lib.rs `Game`).  The board is the 64-slot
array `[Option<Piece>; 64]`, modelled as a list indexed by `col + row*8`. -/
structure Game where
  board : List (Option Piece)
  turn_owner : Color
  turn_count : Nat
  game_state : GameState
deriving DecidableEq, Repr

/-- Rust `x as u8` on a machine `i8`/wider value held as `Int`
(wrapping truncation to 0..255). -/
def asU8 (i : Int) : Nat := (i % 256).toNat

/-- Rust `x as i8` on a machine `u8` value held as `Nat`
(wrapping reinterpretation into -128..127). -/
def i8OfU8 (n : Nat) : Int := if n % 256 < 128 then ((n % 256 : Nat) : Int) else ((n % 256 : Nat) : Int) - 256

/-- Resolve a `Position` against the origin of a move
(src/piece_mod.rs free function `position`). -/
def position (pos : Position) (rel : Nat × Nat) : Nat × Nat :=
  match pos with
  | Position.Global col row => (col, row)
  | Position.Relative r_col r_row => (asU8 (r_col + i8OfU8 rel.1), asU8 (r_row + i8OfU8 rel.2))

/-- `Default for PieceStatus` (src/piece_mod/move_mod.rs). -/
def defaultPieceStatus : PieceStatus :=
  { board_pos := (none, none)
    relative_pos := none
    rank := none
    color := none
    has_moved := none
    last_moved := none }

/-- `Default for Move` (src/piece_mod/move_mod.rs). -/
def defaultMove : Move :=
  { maximum_slide := none
    minimum_slide := 1
    directions := []
    can_capture := true
    color := Color.White
    mirror := none
    requirements := []
    command := none
    effect := []
    safe_throughout := false }

/-- `Piece::new_pawn` (src/piece_mod.rs).  Note the en passant template
hard-codes `color: Some(Color::Black)` in its requirement, for both pawn
colours. -/
def newPawn (color : Color) : Piece :=
  let enemyC : Color := match color with
    | Color.Black => Color.White
    | Color.White => Color.Black
  let mult0 : Int := if color = Color.White then 1 else -1
  let mult1 : Int := if color = Color.White then 0 else 1
  Piece.mk 'p' color false true none 0
    [ { defaultMove with
          maximum_slide := some 1
          directions := [(0, 1 * mult0)]
          can_capture := false
          color := color }
    , { defaultMove with
          maximum_slide := some 2
          minimum_slide := 2
          directions := [(0, 1 * mult0)]
          can_capture := false
          requirements := [ { defaultPieceStatus with
                                relative_pos := some (0, 0)
                                rank := some 'p'
                                has_moved := some (Comparator.Exactly, 0) } ]
          color := color }
    , { defaultMove with
          maximum_slide := some 1
          directions := [(1, 1 * mult0)]
          mirror := some Mirror.Horizontally
          requirements := [ { defaultPieceStatus with
                                relative_pos := some (1, 1 * mult0)
                                color := some enemyC
                                rank := some '0' } ]
          color := color }
    , { defaultMove with
          maximum_slide := some 1
          directions := [(1, 1 * mult0)]
          mirror := some Mirror.Horizontally
          can_capture := false
          requirements := [ { defaultPieceStatus with
                                rank := some 'p'
                                board_pos := (none, some (asU8 (8 * mult1 + 4 * mult0)))
                                relative_pos := some (1, 0)
                                has_moved := some (Comparator.Exactly, 1)
                                color := some Color.Black
                                last_moved := some 0 } ]
          color := color
          effect := [Effect.Capture (Position.Relative 1 0)] } ]

/-- `Piece::new_rook` (src/piece_mod.rs). -/
def newRook (color : Color) : Piece :=
  Piece.mk 'R' color false false none 0
    [ { defaultMove with
          directions := [(0, 1), (1, 0)]
          mirror := some Mirror.VerAndHor
          color := color } ]

/-- `Piece::new_bishop` (src/piece_mod.rs). -/
def newBishop (color : Color) : Piece :=
  Piece.mk 'B' color false false none 0
    [ { defaultMove with
          directions := [(1, 1)]
          mirror := some Mirror.VerAndHor
          color := color } ]

/-- `Piece::new_knight` (src/piece_mod.rs). -/
def newKnight (color : Color) : Piece :=
  Piece.mk 'N' color false false none 0
    [ { defaultMove with
          directions := [(2, 1), (1, 2)]
          mirror := some Mirror.VerAndHor
          color := color } ]

/-- `Piece::new_queen` (src/piece_mod.rs). -/
def newQueen (color : Color) : Piece :=
  Piece.mk 'Q' color false false none 0
    [ { defaultMove with
          directions := [(0, 1), (1, 1), (1, 0)]
          mirror := some Mirror.VerAndHor
          color := color } ]

/-- `Piece::new_king` (src/piece_mod.rs).  The two castling templates
hard-code `color: Color::White` (noted in the spec as a source quirk) and
set `safe_throughout`. -/
def newKing (color : Color) : Piece :=
  Piece.mk 'K' color true false none 0
    [ { defaultMove with
          maximum_slide := some 1
          directions := [(0, 1), (1, 1), (1, 0)]
          mirror := some Mirror.VerAndHor
          color := color }
    , { defaultMove with
          maximum_slide := some 2
          minimum_slide := 2
          can_capture := false
          color := Color.White
          directions := [(1, 0)]
          safe_throughout := true
          requirements := [ { defaultPieceStatus with
                                relative_pos := some (0, 0)
                                has_moved := some (Comparator.Exactly, 0) }
                          , { defaultPieceStatus with
                                relative_pos := some (3, 0)
                                color := some color
                                rank := some 'R'
                                has_moved := some (Comparator.Exactly, 0) } ]
          command := some "O-O"
          effect := [Effect.Move (Position.Relative 3 0) (Position.Relative 1 0)] }
    , { defaultMove with
          maximum_slide := some 2
          minimum_slide := 2
          can_capture := false
          color := Color.White
          directions := [(-1, 0)]
          safe_throughout := true
          requirements := [ { defaultPieceStatus with
                                relative_pos := some (0, 0)
                                has_moved := some (Comparator.Exactly, 0) }
                          , { defaultPieceStatus with
                                relative_pos := some (-4, 0)
                                color := some color
                                rank := some 'R'
                                has_moved := some (Comparator.Exactly, 0) } ]
          command := some "O-O-O"
          effect := [Effect.Move (Position.Relative (-4) 0) (Position.Relative (-1) 0)] } ]

/-- `Piece::new` (src/piece_mod.rs).  The wildcard arm panics
("Maybe do not make it crash when making a piece that does not exist."),
modelled as `none`. -/
def pieceNew (color : Color) (rank : Char) : Option Piece :=
  if rank = 'K' then some (newKing color)
  else if rank = 'Q' then some (newQueen color)
  else if rank = 'B' then some (newBishop color)
  else if rank = 'N' then some (newKnight color)
  else if rank = 'R' then some (newRook color)
  else if rank = 'p' then some (newPawn color)
  else none

/-- `Game::get_piece_at` (src/lib.rs): bounds-guarded board read. -/
def pieceAt (g : Game) (col row : Nat) : Option Piece :=
  if col > 7 ∨ row > 7 then none
  else (g.board.getD (row * 8 + col) none)

/-- Type of the safety oracle threaded through the move interpreter: the
interpreter calls back into `Game::is_safe_position`, which is made explicit
here to break the mutual recursion (see `isSafePositionF`). -/
abbrev SafeFn := Game → Nat → Nat → Color → Option Bool

/-- Association-list model of `HashMap<u8, Vec<Effect>>`: destination index
to effect list. -/
abbrev MoveMap := List (Nat × List Effect)

/-- `HashMap::insert`: replace the value at an existing key, else append. -/
def mapInsert (m : MoveMap) (k : Nat) (v : List Effect) : MoveMap :=
  if m.any (fun kv => kv.1 == k) then m.map (fun kv => if kv.1 == k then (k, v) else kv)
  else m ++ [(k, v)]

/-- `HashMap::get`. -/
def mapGet (m : MoveMap) (k : Nat) : Option (List Effect) :=
  match m.find? (fun kv => kv.1 == k) with
  | some kv => some kv.2
  | none => none

/-- `HashSet::insert` on the danger-zone set. -/
def setInsert (s : List Nat) (x : Nat) : List Nat :=
  if x ∈ s then s else s ++ [x]

/-- `check_piece_status` (src/piece_mod/move_mod.rs): does the occupant of
the referenced square match the predicate. -/
def checkPieceStatus (piece : Option Piece) (status : PieceStatus) (game : Game) : Bool :=
  match piece with
  | some p =>
    match status.rank with
    | none => false
    | some rank =>
      if rank ≠ '0' ∧ rank ≠ p.rank then false
      else if (match status.color with | some c => decide (c ≠ p.color) | none => false) then false
      else if (match status.last_moved with
               | some lm =>
                 if 0 < lm then
                   match p.last_moved with
                   | none => true
                   | some plm => lm ≠ (plm : Int)
                 else
                   match p.last_moved with
                   | some plm =>
                     (game.turn_count : Int) + lm -
                       (if game.turn_owner = p.color ∨ game.turn_owner = Color.White then 1 else 0)
                       ≠ (plm : Int)
                   | none => true
               | none => false) then false
      else
        match status.has_moved with
        | some cv =>
          match cv.1 with
          | Comparator.MoreThan => decide (p.times_moved > cv.2)
          | Comparator.AtLeast => decide (p.times_moved ≥ cv.2)
          | Comparator.Exactly => decide (p.times_moved = cv.2)
          | Comparator.AtMost => decide (p.times_moved ≤ cv.2)
          | Comparator.LessThan => decide (p.times_moved < cv.2)
        | none => true
  | none =>
    match status.rank with
    | some _ => false
    | none => true

/-- `check_conditions` (src/piece_mod/move_mod.rs).  Faithful to the source:
the `for` loop over the conditions contains an unconditional `return`, so
only the FIRST condition is ever evaluated.  `none` models the panic of the
`board_pos` unwraps when `relative_pos` is absent and a `board_pos`
component is too. -/
def checkConditions (game : Game) (pos : Nat × Nat) (conditions : List PieceStatus)
    (mirror : Option Mirror) : Option Bool :=
  match conditions with
  | [] => some true
  | con :: _rest =>
    let cdf : Int := match mirror with
      | some Mirror.Horizontally => -1
      | some Mirror.VerAndHor => -1
      | _ => 1
    let cf : Nat := match mirror with
      | some Mirror.Horizontally => 1
      | some Mirror.VerAndHor => 1
      | _ => 0
    let rdf : Int := match mirror with
      | some Mirror.Vertically => -1
      | some Mirror.VerAndHor => -1
      | _ => 1
    let rf : Nat := match mirror with
      | some Mirror.Vertically => 1
      | some Mirror.VerAndHor => 1
      | _ => 0
    match con.relative_pos with
    | some r_pos =>
      let col := asU8 (i8OfU8 pos.1 + r_pos.1 * cdf)
      let row := asU8 (i8OfU8 pos.2 + r_pos.2 * rdf)
      if (match con.board_pos.1 with
          | some c => decide (col ≠ asU8 (8 * (cf : Int) + i8OfU8 c * cdf))
          | none => false) then some false
      else if (match con.board_pos.2 with
               | some r => decide (row ≠ asU8 (8 * (rf : Int) + i8OfU8 r * rdf))
               | none => false) then some false
      else some (checkPieceStatus (pieceAt game col row) con game)
    | none =>
      match con.board_pos.1, con.board_pos.2 with
      | some c0, some r0 =>
        let col := asU8 (8 * (cf : Int) + i8OfU8 c0 * cdf)
        let row := asU8 (8 * (rf : Int) + i8OfU8 r0 * rdf)
        some (checkPieceStatus (pieceAt game col row) con game)
      | _, _ => none

/-- Loop body of `prune_dir` (src/piece_mod/move_mod.rs), iterating the step
counts `0..=max_s` given as the first list argument, with accumulator `r`. -/
def pruneDirGo (safe : SafeFn) (p_col p_row : Nat) (d_col d_row : Int) (min_s : Nat)
    (can_capture : Bool) (color : Color) (game : Game) (safe_throughout : Bool) :
    List Nat → List Nat → Option (List Nat)
  | [], r => some r
  | i :: rest, r =>
    let col : Int := i8OfU8 p_col + i8OfU8 i * d_col
    let row : Int := i8OfU8 p_row + i8OfU8 i * d_row
    if col < 0 ∨ row < 0 ∨ 8 ≤ col ∨ 8 ≤ row then some r
    else
      match (if safe_throughout then safe game col.toNat row.toNat color else some true) with
      | none => none
      | some s =>
        if ¬ s then some r
        else
          match pieceAt game col.toNat row.toNat with
          | none =>
            pruneDirGo safe p_col p_row d_col d_row min_s can_capture color game safe_throughout
              rest (if min_s ≤ i then r ++ [col.toNat + row.toNat * 8] else r)
          | some piece =>
            let r2 := if ((can_capture ∧ piece.color ≠ color) ∨ i = 0) ∧ min_s ≤ i
              then r ++ [col.toNat + row.toNat * 8] else r
            if 0 < i then some r2
            else pruneDirGo safe p_col p_row d_col d_row min_s can_capture color game
              safe_throughout rest r2

/-- `prune_dir` (src/piece_mod/move_mod.rs): slide expansion of one ray. -/
def pruneDirP (safe : SafeFn) (p_col p_row : Nat) (d_col d_row : Int) (min_s max_s : Nat)
    (can_capture : Bool) (color : Color) (game : Game) (safe_throughout : Bool) :
    Option (List Nat) :=
  pruneDirGo safe p_col p_row d_col d_row min_s can_capture color game safe_throughout
    (List.range (max_s + 1)) []

/-- Insert every destination of a ray into the result map with a clone of
the template's effect list (the `valid.insert(value, self.effect.clone())`
loops inside `Move::prune`). -/
def insertList (valid : MoveMap) (eff : List Effect) : List Nat → MoveMap
  | [] => valid
  | v :: rest => insertList (mapInsert valid v eff) eff rest

/-- One direction/mirror variant inside `Move::prune`: evaluate the
requirements under `mir`, and on success expand the ray and record its
destinations. -/
def pruneVariant (safe : SafeFn) (m : Move) (game : Game) (pos : Nat × Nat) (max_s : Nat)
    (d_col d_row : Int) (valid : MoveMap) (mir : Option Mirror) : Option MoveMap :=
  match checkConditions game pos m.requirements mir with
  | none => none
  | some ok =>
    if ok then
      match pruneDirP safe pos.1 pos.2 d_col d_row m.minimum_slide max_s m.can_capture
          m.color game m.safe_throughout with
      | none => none
      | some lst => some (insertList valid m.effect lst)
    else some valid

/-- The body of `Move::prune`'s loop over one base direction, covering the
base variant and the mirror variants that `m.mirror` activates. -/
def pruneDirection (safe : SafeFn) (m : Move) (game : Game) (pos : Nat × Nat) (max_s : Nat)
    (di : Int × Int) (valid : MoveMap) : Option MoveMap :=
  match pruneVariant safe m game pos max_s di.1 di.2 valid none with
  | none => none
  | some v1 =>
    match m.mirror with
    | none => some v1
    | some mir =>
      match (if mir = Mirror.Horizontally ∨ mir = Mirror.VerAndHor then
               pruneVariant safe m game pos max_s (-di.1) di.2 v1 (some Mirror.Horizontally)
             else some v1) with
      | none => none
      | some v2 =>
        match (if mir = Mirror.Vertically ∨ mir = Mirror.VerAndHor then
                 pruneVariant safe m game pos max_s di.1 (-di.2) v2 (some Mirror.Vertically)
               else some v2) with
        | none => none
        | some v3 =>
          if mir = Mirror.VerAndHor then
            pruneVariant safe m game pos max_s (-di.1) (-di.2) v3 (some Mirror.VerAndHor)
          else some v3

/-- Loop of `Move::prune` over the base directions. -/
def prunePGo (safe : SafeFn) (m : Move) (game : Game) (pos : Nat × Nat) (max_s : Nat) :
    List (Int × Int) → MoveMap → Option MoveMap
  | [], valid => some valid
  | di :: rest, valid =>
    match pruneDirection safe m game pos max_s di valid with
    | none => none
    | some v => prunePGo safe m game pos max_s rest v

/-- `Move::prune` (src/piece_mod/move_mod.rs).  Faithful to the source,
including the inverted `safe_throughout` early exit: the empty map is
returned when the origin IS safe for `m.color`. -/
def pruneP (safe : SafeFn) (m : Move) (game : Game) (pos : Nat × Nat) : Option MoveMap :=
  match (if m.safe_throughout then safe game pos.1 pos.2 m.color else some false) with
  | none => none
  | some stop =>
    if stop then some []
    else
      let max_s : Nat := match m.maximum_slide with
        | some n => n
        | none => 8
      prunePGo safe m game pos max_s m.directions []

/-- Danger-zone insertion of the squares named by `Capture`-typed effects
(inner loop of `Piece::get_danger_zone`). -/
def dzEffects (col row : Nat) (acc : List Nat) : List Effect → List Nat
  | [] => acc
  | Effect.Capture p :: rest =>
    dzEffects col row
      (match p with
       | Position.Global c r => setInsert acc ((c + r * 8) % 256)
       | Position.Relative rc rr => setInsert acc ((asU8 rc + col + (asU8 rr + row) * 8) % 256))
      rest
  | _ :: rest => dzEffects col row acc rest

/-- Per-destination loop of `Piece::get_danger_zone` over a prune batch. -/
def dzBatchGo (m : Move) (col row : Nat) (all : List Nat) : List (Nat × List Effect) → List Nat
  | [] => all
  | (key, _val) :: rest =>
    dzBatchGo m col row (dzEffects col row (if m.can_capture then setInsert all key else all) m.effect) rest

/-- Loop of `Piece::get_danger_zone` over the piece's templates, with the
skip of templates that can neither capture on their destination nor via a
`Capture` effect. -/
def dzMovesGo (safe : SafeFn) (game : Game) (col row : Nat) (all : List Nat) :
    List Move → Option (List Nat)
  | [] => some all
  | m :: rest =>
    if ¬ m.can_capture ∧ ¬ (m.effect.any fun e => match e with
        | Effect.Capture _ => true
        | _ => false) then
      dzMovesGo safe game col row all rest
    else
      match pruneP safe m game (col, row) with
      | none => none
      | some batch => dzMovesGo safe game col row (dzBatchGo m col row all batch) rest

/-- `Piece::get_danger_zone` (src/piece_mod.rs): squares this piece
threatens. -/
def getDangerZoneP (safe : SafeFn) (p : Piece) (col row : Nat) (game : Game) :
    Option (List Nat) :=
  dzMovesGo safe game col row [] p.moves

/-- Scan of `Game::is_safe_position` over the board indices `0..64`. -/
def isSafePosGo (safe : SafeFn) (game : Game) (col row : Nat) (color : Color) :
    List Nat → Option Bool
  | [] => some true
  | i :: rest =>
    match pieceAt game (i % 8) (i >>> 3) with
    | none => isSafePosGo safe game col row color rest
    | some piece =>
      if piece.color = color then isSafePosGo safe game col row color rest
      else
        match getDangerZoneP safe piece (i % 8) (i >>> 3) game with
        | none => none
        | some a =>
          if (col + row * 8) % 256 ∈ a then some false
          else isSafePosGo safe game col row color rest

/-- `Game::is_safe_position` (src/lib.rs), with an explicit fuel bounding the
`prune → is_safe_position` recursion (the actual recursion depth is at most
one extra level, thanks to the turn-owner guard).  Fuel exhaustion is
`none`, like an aborted run. -/
def isSafePositionF : Nat → Game → Nat → Nat → Color → Option Bool
  | 0, _, _, _, _ => none
  | fuel + 1, game, col, row, color =>
    if color ≠ game.turn_owner then some true
    else isSafePosGo (isSafePositionF fuel) game col row color (List.range 64)

/-- `Move::prune` at fuel `fuel` for the safety oracle. -/
def pruneF (fuel : Nat) (m : Move) (game : Game) (pos : Nat × Nat) : Option MoveMap :=
  pruneP (isSafePositionF fuel) m game pos

/-- `Piece::get_danger_zone` at fuel `fuel` for the safety oracle. -/
def getDangerZoneF (fuel : Nat) (p : Piece) (col row : Nat) (game : Game) : Option (List Nat) :=
  getDangerZoneP (isSafePositionF fuel) p col row game

/-- `Game::just_move` (src/lib.rs): unchecked displacement; `none` models the
`expect` panic on an empty/out-of-range origin and the index panic on an
out-of-range target. -/
def justMove (g : Game) (f t : Nat × Nat) : Option Game :=
  let fIdx := (f.1 + f.2 * 8) % 256
  let tIdx := (t.1 + t.2 * 8) % 256
  match g.board[fIdx]? with
  | none => none
  | some none => none
  | some (some piece) =>
    let piece2 : Piece := { piece with last_moved := some g.turn_count, times_moved := piece.times_moved + 1 }
    let g1 : Game :=
      if piece2.can_promote ∧ t.2 = (match piece2.color with | Color.White => 7 | Color.Black => 0)
      then { g with game_state := GameState.Promote } else g
    if tIdx < 64 then some { g1 with board := (g1.board.set tIdx (some piece2)).set fIdx none }
    else none

/-- `Game::capture` (src/lib.rs): clear a square; `none` models the index
panic on an out-of-range square. -/
def capture (g : Game) (pos : Nat × Nat) : Option Game :=
  let idx := (pos.1 + pos.2 * 8) % 256
  if idx < 64 then some { g with board := g.board.set idx none }
  else none

/-- Effect loop of `Game::just_execute_move`, resolving `Relative` positions
against the original origin `f`. -/
def applyEffectsGo (f : Nat × Nat) (g : Game) : List Effect → Option Game
  | [] => some g
  | e :: rest =>
    match (match e with
           | Effect.Capture p => capture g (position p f)
           | Effect.Move p1 p2 => justMove g (position p1 f) (position p2 f)) with
    | none => none
    | some g2 => applyEffectsGo f g2 rest

/-- `Game::just_execute_move` (src/lib.rs). -/
def justExecuteMove (g : Game) (f t : Nat × Nat) (effects : List Effect) : Option Game :=
  match justMove g f t with
  | none => none
  | some g1 => applyEffectsGo f g1 effects

/-- Board scan of `Game::is_safe_move` over the simulated game's cells,
`i` being the running index of the `for p in &gc.board` loop. -/
def isSafeMoveGo (safe : SafeFn) (gc : Game) (color : Color) :
    Nat → List (Option Piece) → Option Bool
  | _, [] => some true
  | i, p :: rest =>
    match p with
    | some piece =>
      if piece.is_crucial ∧ piece.color = color then
        match safe gc (i % 8) (i >>> 3) color with
        | none => none
        | some s =>
          if ¬ s then some false else isSafeMoveGo safe gc color (i + 1) rest
      else isSafeMoveGo safe gc color (i + 1) rest
    | none => isSafeMoveGo safe gc color (i + 1) rest

/-- `Game::is_safe_move` (src/lib.rs): simulate the move plus its effects on
a clone, then require every crucial piece of `color` to sit on a safe
square. -/
def isSafeMoveF (fuel : Nat) (g : Game) (f t : Nat × Nat) (effects : List Effect)
    (color : Color) : Option Bool :=
  match justExecuteMove g f t effects with
  | none => none
  | some gc => isSafeMoveGo (isSafePositionF fuel) gc color 0 gc.board

/-- Per-batch loop of `Piece::all_possible_moves`: keep an entry iff
`is_safe_move` accepts it. -/
def apmBatchGo (fuel : Nat) (game : Game) (color : Color) (col row : Nat) (all : MoveMap) :
    List (Nat × List Effect) → Option MoveMap
  | [] => some all
  | (key, val) :: rest =>
    match isSafeMoveF fuel game (col, row) (key % 8, key >>> 3) val color with
    | none => none
    | some s =>
      apmBatchGo fuel game color col row (if s then mapInsert all key val else all) rest

/-- Template loop of `Piece::all_possible_moves`. -/
def apmMovesGo (fuel : Nat) (game : Game) (color : Color) (col row : Nat) (all : MoveMap) :
    List Move → Option MoveMap
  | [] => some all
  | m :: rest =>
    match pruneF fuel m game (col, row) with
    | none => none
    | some batch =>
      match apmBatchGo fuel game color col row all batch with
      | none => none
      | some all2 => apmMovesGo fuel game color col row all2 rest

/-- `Piece::all_possible_moves` (src/piece_mod.rs): all templates' prune
results, filtered by the king-safety simulation. -/
def allPossibleMovesF (fuel : Nat) (p : Piece) (col row : Nat) (game : Game) : Option MoveMap :=
  apmMovesGo fuel game p.color col row [] p.moves

/-- `Game::get_moves` (src/lib.rs).  The outer `Option` is abort, the inner
is the source's `Option` ("no piece at that square"). -/
def getMovesF (fuel : Nat) (g : Game) (col row : Nat) : Option (Option MoveMap) :=
  match pieceAt g col row with
  | some p =>
    match allPossibleMovesF fuel p col row g with
    | none => none
    | some m => some (some m)
  | none => some none

/-- Scan of `Game::has_moves` over the board indices. -/
def hasMovesGo (fuel : Nat) (g : Game) : List Nat → Option Bool
  | [] => some false
  | i :: rest =>
    match pieceAt g (i % 8) (i >>> 3) with
    | none => hasMovesGo fuel g rest
    | some p =>
      if p.color ≠ g.turn_owner then hasMovesGo fuel g rest
      else
        match getMovesF fuel g (i % 8) (i >>> 3) with
        | none => none
        | some (some m) => if m.length > 0 then some true else hasMovesGo fuel g rest
        | some none => hasMovesGo fuel g rest

/-- `Game::has_moves` (src/lib.rs): does the turn owner have any legal
move. -/
def hasMovesF (fuel : Nat) (g : Game) : Option Bool :=
  hasMovesGo fuel g (List.range 64)

/-- Scan of `Game::in_check` over the board indices. -/
def inCheckGo (fuel : Nat) (g : Game) : List Nat → Option Bool
  | [] => some false
  | i :: rest =>
    match pieceAt g (i % 8) (i >>> 3) with
    | none => inCheckGo fuel g rest
    | some p =>
      if p.is_crucial ∧ p.color = g.turn_owner then
        match isSafePositionF fuel g (i % 8) (i >>> 3) p.color with
        | none => none
        | some s => if ¬ s then some true else inCheckGo fuel g rest
      else inCheckGo fuel g rest

/-- `Game::in_check` (src/lib.rs): is a crucial piece of the turn owner on
an unsafe square. -/
def inCheckF (fuel : Nat) (g : Game) : Option Bool :=
  inCheckGo fuel g (List.range 64)

/-- The owner-flip/counter step at the head of `Game::increment_turn`
(src/lib.rs). -/
def flipOwner (g : Game) : Game :=
  match g.turn_owner with
  | Color.White => { g with turn_owner := Color.Black }
  | Color.Black => { g with turn_owner := Color.White, turn_count := g.turn_count + 1 }

/-- `Game::increment_turn` (src/lib.rs): flip the owner, bump the counter on
Black's completion, then classify Check/Running and the mate states. -/
def incrementTurnF (fuel : Nat) (g : Game) : Option Game :=
  let g1 : Game := flipOwner g
  match inCheckF fuel g1 with
  | none => none
  | some c =>
    let g2 : Game :=
      if c then { g1 with game_state := GameState.Check }
      else { g1 with game_state := GameState.Running }
    match hasMovesF fuel g2 with
    | none => none
    | some hm =>
      if ¬ hm then
        some { g2 with game_state := match g2.game_state with
                | GameState.Check => GameState.CheckMate
                | _ => GameState.Stalemate }
      else some g2

/-- Body of `Game::make_move` after the game-state gate (src/lib.rs). -/
def makeMoveBody (fuel : Nat) (g : Game) (f t : Nat × Nat) : Option (Bool × Game) :=
  match pieceAt g f.1 f.2 with
  | none => some (false, g)
  | some piece =>
    if g.turn_owner ≠ piece.color then some (false, g)
    else
      match allPossibleMovesF fuel piece f.1 f.2 g with
      | none => none
      | some moves =>
        match mapGet moves ((t.1 + t.2 * 8) % 256) with
        | none => some (false, g)
        | some effects =>
          match justExecuteMove g f t effects with
          | none => none
          | some g1 =>
            if g1.game_state ≠ GameState.Promote then
              match incrementTurnF fuel g1 with
              | none => none
              | some g2 => some (true, g2)
            else some (true, g1)

/-- `Game::make_move` (src/lib.rs): returns whether a legal move was
executed, along with the updated game. -/
def makeMoveF (fuel : Nat) (g : Game) (f t : Nat × Nat) : Option (Bool × Game) :=
  match g.game_state with
  | GameState.Running => makeMoveBody fuel g f t
  | GameState.Check => makeMoveBody fuel g f t
  | _ => some (false, g)

/-- Column scan of `Game::get_promotion` on one row for one colour. -/
def getPromotionScan (g : Game) (row : Nat) (color : Color) :
    List Nat → Option ((Nat × Nat) × Piece)
  | [] => none
  | col :: rest =>
    match pieceAt g col row with
    | some p =>
      if p.can_promote ∧ p.color = color then some ((col, row), p)
      else getPromotionScan g row color rest
    | none => getPromotionScan g row color rest

/-- `Game::get_promotion` (src/lib.rs): first pending promotion, Whites on
row 7 first, then Blacks on row 0. -/
def getPromotion (g : Game) : Option ((Nat × Nat) × Piece) :=
  if g.game_state ≠ GameState.Promote then none
  else
    match getPromotionScan g 7 Color.White (List.range 8) with
    | some r => some r
    | none => getPromotionScan g 0 Color.Black (List.range 8)

/-- `Game::promote` (src/lib.rs).  `none` models the `Piece::new` panic on an
unknown rank character. -/
def promoteF (fuel : Nat) (g : Game) (pos : Nat × Nat) (rank : Char) : Option (Bool × Game) :=
  if g.game_state ≠ GameState.Promote then some (false, g)
  else
    match pieceAt g pos.1 pos.2 with
    | none => some (false, g)
    | some p =>
      if ¬ p.can_promote ∨ p.rank = rank then some (false, g)
      else if ¬ (p.color = Color.White ∧ pos.2 = 7) ∧ ¬ (p.color = Color.Black ∧ pos.2 = 0) then
        some (false, g)
      else
        match pieceNew p.color rank with
        | none => none
        | some template_piece =>
          if template_piece.is_crucial ∨ template_piece.can_promote then some (false, g)
          else
            let promoted : Piece :=
              { template_piece with last_moved := p.last_moved, times_moved := p.times_moved }
            let g1 : Game := { g with board := g.board.set ((pos.1 + pos.2 * 8) % 256) (some promoted) }
            match getPromotion g1 with
            | none =>
              match incrementTurnF fuel { g1 with game_state := GameState.Running } with
              | none => none
              | some g2 => some (true, g2)
            | some _ => some (true, g1)

/-- Loop of `Game::make_board` over the 64 template cells, carrying the
board under construction and the two crucial-piece flags.  `none` models the
`Piece::new` panic on an unknown rank character. -/
def makeBoardGo (template : List Char) (white_map : Nat) :
    List Nat → List (Option Piece) → Bool → Bool →
    Option (Except String (List (Option Piece)))
  | [], board, w, b =>
    if ¬ w ∨ ¬ b then some (Except.error "Both sides need at least one crucial piece")
    else some (Except.ok board)
  | i :: rest, board, w, b =>
    let rank := template.getD i '0'
    if rank = '0' then makeBoardGo template white_map rest board w b
    else
      let color := if (white_map >>> i) % 2 = 1 then Color.White else Color.Black
      match pieceNew color rank with
      | none => none
      | some piece =>
        makeBoardGo template white_map rest (board.set i (some piece))
          (if piece.is_crucial ∧ color = Color.White then true else w)
          (if piece.is_crucial ∧ color = Color.Black then true else b)

/-- `Game::make_board` (src/lib.rs). -/
def makeBoard (template : List Char) (white_map : Nat) :
    Option (Except String (List (Option Piece))) :=
  makeBoardGo template white_map (List.range 64) (List.replicate 64 none) false false

/-- The standard-board template of `Game::new` (src/lib.rs). -/
def defaultTemplate : List Char :=
  [ 'R', 'N', 'B', 'Q', 'K', 'B', 'N', 'R'
  , 'p', 'p', 'p', 'p', 'p', 'p', 'p', 'p'
  , '0', '0', '0', '0', '0', '0', '0', '0'
  , '0', '0', '0', '0', '0', '0', '0', '0'
  , '0', '0', '0', '0', '0', '0', '0', '0'
  , '0', '0', '0', '0', '0', '0', '0', '0'
  , 'p', 'p', 'p', 'p', 'p', 'p', 'p', 'p'
  , 'R', 'N', 'B', 'Q', 'K', 'B', 'N', 'R' ]

/-- `Game::new` (src/lib.rs): the standard starting position.  `none` models
the `unwrap` on a failed default-board construction. -/
def gameNew : Option Game :=
  match makeBoard defaultTemplate 0xFFFF with
  | some (Except.ok board) =>
    some { board := board, turn_owner := Color.White, turn_count := 1, game_state := GameState.Running }
  | _ => none

/-- An all-empty 64-cell board, for building concrete test positions. -/
def emptyBoard : List (Option Piece) := List.replicate 64 none

/-- Place a piece on a board at `(c, r)` (test-position construction). -/
def putAt (b : List (Option Piece)) (c r : Nat) (p : Piece) : List (Option Piece) :=
  b.set (c + r * 8) (some p)

/-- Concrete position: a lone White king at (0,0) and Black king at (7,7),
White to move. -/
def gTiny : Game :=
  { board := putAt (putAt emptyBoard 0 0 (newKing Color.White)) 7 7 (newKing Color.Black)
  , turn_owner := Color.White
  , turn_count := 1
  , game_state := GameState.Running }

/-- First requirement of the C1 test template: any piece on the origin
square itself (satisfied by the mover). -/
def c1Req1 : PieceStatus := { defaultPieceStatus with relative_pos := some (0, 0), rank := some '0' }

/-- Second requirement of the C1 test template: a rook at relative (1,1)
(not satisfied on `gTiny`). -/
def c1Req2 : PieceStatus := { defaultPieceStatus with relative_pos := some (1, 1), rank := some 'R' }

/-- A template with two requirements, of which only the first holds on
`gTiny` at origin (0,0). -/
def c1Move : Move :=
  { defaultMove with
      directions := [(1, 0)]
      maximum_slide := some 1
      can_capture := false
      requirements := [c1Req1, c1Req2] }

/-- Concrete kingside-castling position of spec scenario 6: White king at
(4,0), White rook at (7,0), (5,0)/(6,0) empty, Black king far away at
(4,7), White to move. -/
def gCastle : Game :=
  { board := putAt (putAt (putAt emptyBoard 4 0 (newKing Color.White)) 7 0 (newRook Color.White)) 4 7 (newKing Color.Black)
  , turn_owner := Color.White
  , turn_count := 1
  , game_state := GameState.Running }

/-- The kingside castling template of the White king. -/
def kingsideCastleW : Move := (newKing Color.White).moves.getD 1 defaultMove

/-- The single requirement of the Black pawn's en passant template. -/
def epReqB : PieceStatus :=
  ((newPawn Color.Black).moves.getD 3 defaultMove).requirements.getD 0 defaultPieceStatus

/-- Concrete en-passant-for-Black position: Black pawn at (4,4), a White
pawn at (3,4) that has moved exactly once on the previous turn, both kings
present, Black to move. -/
def gEPb : Game :=
  { board := putAt (putAt (putAt (putAt emptyBoard 0 0 (newKing Color.White)) 7 7 (newKing Color.Black)) 4 4 (newPawn Color.Black)) 3 4 { newPawn Color.White with times_moved := 1, last_moved := some 1 }
  , turn_owner := Color.Black
  , turn_count := 1
  , game_state := GameState.Running }

/-- A 64-character template containing the unknown rank character  'X'
(plus a king for each side). -/
def tUnknown : List Char := ['K', 'X'] ++ List.replicate 61 '0' ++ ['K']

/-- A 64-character template whose only piece is a single White king, so the
Black side lacks a crucial piece. -/
def tMissing : List Char := 'K' :: List.replicate 63 '0'

/-- A game whose board is entirely empty (no piece at any origin). -/
def gEmpty : Game :=
  { board := emptyBoard
  , turn_owner := Color.White
  , turn_count := 1
  , game_state := GameState.Running }

/-- Claim C1: the claim says a variant yields destinations only if EVERY
requirement holds, and in particular a template whose first requirement
holds but whose second fails yields nothing.  The code contradicts this:
`check_conditions` returns from inside its loop after evaluating only the
first requirement, so on `gTiny` the template `c1Move` — whose second
requirement `c1Req2` fails — still passes the requirement check and its
variant yields the destination (1,0). -/
theorem checkConditions_checks_only_first_requirement :
    checkConditions gTiny (0, 0) [c1Req1, c1Req2] none = some true ∧
    checkPieceStatus (pieceAt gTiny 1 1) c1Req2 gTiny = false ∧
    pruneF 1 c1Move gTiny (0, 0) = some [(1, [])] := by
  decide

/-- A minimal `safe_throughout` template used to exhibit the inverted early
exit of `Move::prune`: one step east, no requirements, template colour
Black (so the origin is trivially "safe" while White owns the turn). -/
def c2Move : Move :=
  { defaultMove with
      directions := [(1, 0)]
      maximum_slide := some 1
      safe_throughout := true
      color := Color.Black }

/-- Claim C2: the claim says `prune` yields the empty map when the origin is
unsafe and proceeds to ray expansion when it is safe.  The code negates the
condition and returns the empty map exactly when the origin IS safe: on
`gCastle` the origin (4,0) is safe for White, yet the kingside-castling
template prunes to nothing; and on `gTiny` the template `c2Move`, whose
origin is safe for its colour, prunes to nothing purely because of the
early exit — clearing its `safe_throughout` flag restores the ray
destination (1,0). -/
theorem prune_safe_throughout_negated :
    isSafePositionF 2 gCastle 4 0 Color.White = some true ∧
    pruneF 2 kingsideCastleW gCastle (4, 0) = some [] ∧
    isSafePositionF 1 gTiny 0 0 Color.Black = some true ∧
    pruneF 1 c2Move gTiny (0, 0) = some [] ∧
    pruneF 1 { c2Move with safe_throughout := false } gTiny (0, 0) = some [(1, [])] := by
  decide

/-- Claim C3: the claim (spec scenario 6) says that in this position
`make_move((4,0),(6,0))` returns true and castles.  The code returns false
and leaves the game unchanged, because the inverted `safe_throughout` check
makes the castling template prune to nothing exactly when the origin is
safe.  All scenario preconditions hold in `gCastle`: unmoved king at (4,0),
unmoved rook at (7,0), empty (5,0)/(6,0), and (4,0),(5,0),(6,0) all safe. -/
theorem castling_make_move_returns_false :
    pieceAt gCastle 4 0 = some (newKing Color.White) ∧
    pieceAt gCastle 7 0 = some (newRook Color.White) ∧
    pieceAt gCastle 5 0 = none ∧
    pieceAt gCastle 6 0 = none ∧
    isSafePositionF 2 gCastle 4 0 Color.White = some true ∧
    isSafePositionF 2 gCastle 5 0 Color.White = some true ∧
    isSafePositionF 2 gCastle 6 0 Color.White = some true ∧
    makeMoveF 2 gCastle (4, 0) (6, 0) = some (false, gCastle) := by
  decide

/-- Claim C4: the claim says the en passant requirement's colour is the
enemy of the moving pawn's colour.  The code hard-codes `Some(Color::Black)`
for both pawn colours, so a Black pawn requires a BLACK neighbour: on
`gEPb` the neighbouring White pawn fails the requirement solely because of
its colour (the same status with colour White succeeds), and the Black
pawn's en passant template yields nothing. -/
theorem en_passant_requirement_color_hardcoded_black :
    epReqB.color = some Color.Black ∧
    (((newPawn Color.White).moves.getD 3 defaultMove).requirements.getD 0 defaultPieceStatus).color
      = some Color.Black ∧
    checkPieceStatus (pieceAt gEPb 3 4) epReqB gEPb = false ∧
    checkPieceStatus (pieceAt gEPb 3 4) { epReqB with color := some Color.White } gEPb = true ∧
    pruneF 1 ((newPawn Color.Black).moves.getD 3 defaultMove) gEPb (4, 4) = some [] := by
  decide

/-- Claim C6: the claim says `make_board` returns an error result (rather
than aborting) when the template contains an unknown rank character.  The
code panics inside `Piece::new` instead (modelled as `none`); only the
missing-crucial-piece case is signalled as an error result. -/
theorem makeBoard_unknown_rank_aborts :
    makeBoard tUnknown 1 = none ∧
    makeBoard tMissing 1 = some (Except.error "Both sides need at least one crucial piece") := by
  decide

/-- Claim C5: whenever `make_move` returns false the game is unchanged —
board, turn owner, turn counter and game state are all exactly the pre-call
values (every rejecting branch of the source returns before any mutation). -/
theorem make_move_false_leaves_game_unchanged (fuel : Nat) (g : Game) (f t : Nat × Nat)
    (g' : Game) (h : makeMoveF fuel g f t = some (false, g')) : g' = g := by
  unfold makeMoveF makeMoveBody at h
  repeat' split at h
  all_goals simp_all

/-- Witness for C5 at a concrete input: on the empty board the move is
rejected and the returned game is the input game. -/
theorem make_move_false_unchanged_witness :
    makeMoveF 0 gEmpty (0, 0) (1, 1) = some (false, gEmpty) ∧ gEmpty = gEmpty :=
  ⟨by decide, make_move_false_leaves_game_unchanged 0 gEmpty (0, 0) (1, 1) gEmpty (by decide)⟩

/-- The colour opposite to the given one (the `enemyC` computation of the
pawn factory). -/
def oppositeColor : Color → Color
  | Color.White => Color.Black
  | Color.Black => Color.White

theorem justMove_preserves_turn {g : Game} {f t : Nat × Nat} {g1 : Game}
    (h : justMove g f t = some g1) :
    g1.turn_owner = g.turn_owner ∧ g1.turn_count = g.turn_count := by
  unfold justMove at h
  dsimp only at h
  rcases hb : g.board[(f.1 + f.2 * 8) % 256]? with _ | (_ | piece) <;> rw [hb] at h
  · simp at h
  · simp at h
  · dsimp only at h
    split at h
    · injection h with h2
      subst h2
      constructor <;> (dsimp only; split <;> rfl)
    · simp at h

theorem capture_preserves_turn {g : Game} {pos : Nat × Nat} {g1 : Game}
    (h : capture g pos = some g1) :
    g1.turn_owner = g.turn_owner ∧ g1.turn_count = g.turn_count := by
  unfold capture at h
  dsimp only at h
  split at h
  · injection h with h2
    subst h2
    exact ⟨rfl, rfl⟩
  · simp at h

theorem applyEffectsGo_nil (f : Nat × Nat) (g : Game) : applyEffectsGo f g [] = some g := rfl

theorem applyEffectsGo_cons (f : Nat × Nat) (g : Game) (e : Effect) (rest : List Effect) :
    applyEffectsGo f g (e :: rest) =
      match (match e with
             | Effect.Capture p => capture g (position p f)
             | Effect.Move p1 p2 => justMove g (position p1 f) (position p2 f)) with
      | none => none
      | some g2 => applyEffectsGo f g2 rest := rfl

theorem applyEffectsGo_preserves_turn {f : Nat × Nat} {es : List Effect} {g g2 : Game}
    (h : applyEffectsGo f g es = some g2) :
    g2.turn_owner = g.turn_owner ∧ g2.turn_count = g.turn_count := by
  induction es generalizing g with
  | nil => rw [applyEffectsGo_nil] at h; injection h with h2; subst h2; exact ⟨rfl, rfl⟩
  | cons e rest ih =>
    rw [applyEffectsGo_cons] at h
    split at h
    · exact absurd h (by simp)
    next gm hm =>
      have h1 : gm.turn_owner = g.turn_owner ∧ gm.turn_count = g.turn_count := by
        split at hm
        · exact capture_preserves_turn hm
        · exact justMove_preserves_turn hm
      have h2 := ih h
      exact ⟨h2.1.trans h1.1, h2.2.trans h1.2⟩

theorem justExecuteMove_preserves_turn {g : Game} {f t : Nat × Nat} {es : List Effect} {g1 : Game}
    (h : justExecuteMove g f t es = some g1) :
    g1.turn_owner = g.turn_owner ∧ g1.turn_count = g.turn_count := by
  unfold justExecuteMove at h
  split at h
  · exact absurd h (by simp)
  next gm hm =>
    have h1 := justMove_preserves_turn hm
    have h2 := applyEffectsGo_preserves_turn h
    exact ⟨h2.1.trans h1.1, h2.2.trans h1.2⟩

theorem incrementTurn_shape {fuel : Nat} {g g2 : Game}
    (h : incrementTurnF fuel g = some g2) :
    g2.turn_owner = oppositeColor g.turn_owner ∧
    g2.turn_count = (if g2.turn_owner = Color.White then g.turn_count + 1 else g.turn_count) ∧
    g2.game_state ≠ GameState.Promote := by
  unfold incrementTurnF at h
  dsimp only at h
  repeat' split at h
  all_goals (try (cases h))
  all_goals (cases how : g.turn_owner <;> simp_all [oppositeColor, flipOwner])

/-- Claim C9: when `make_move` succeeds and the resulting state is not
`Promote`, the turn owner is flipped and `turn_count` is incremented exactly
when the new owner is White (Black's ply just completed); when the resulting
state is `Promote`, the turn owner is unchanged. -/
theorem make_move_turn_flip (fuel : Nat) (g : Game) (f t : Nat × Nat) (g' : Game)
    (h : makeMoveF fuel g f t = some (true, g')) :
    (g'.game_state ≠ GameState.Promote →
      g'.turn_owner = oppositeColor g.turn_owner ∧
      g'.turn_count = (if g'.turn_owner = Color.White then g.turn_count + 1 else g.turn_count)) ∧
    (g'.game_state = GameState.Promote → g'.turn_owner = g.turn_owner) := by
  unfold makeMoveF at h
  have hb : makeMoveBody fuel g f t = some (true, g') := by
    split at h
    · exact h
    · exact h
    · exact absurd h (by simp)
  clear h
  unfold makeMoveBody at hb
  rcases hp : pieceAt g f.1 f.2 with _ | piece <;> rw [hp] at hb <;> dsimp only at hb
  · simp at hb
  · split at hb
    · simp at hb
    · rcases ha : allPossibleMovesF fuel piece f.1 f.2 g with _ | mv <;> rw [ha] at hb <;> dsimp only at hb
      · simp at hb
      · rcases hg : mapGet mv ((t.1 + t.2 * 8) % 256) with _ | effects <;> rw [hg] at hb <;> dsimp only at hb
        · simp at hb
        · rcases he : justExecuteMove g f t effects with _ | g1 <;> rw [he] at hb <;> dsimp only at hb
          · simp at hb
          · have hturn := justExecuteMove_preserves_turn he
            split at hb
            · rename_i hcond
              rcases hi : incrementTurnF fuel g1 with _ | g2 <;> rw [hi] at hb <;> dsimp only at hb
              · simp at hb
              · have hshape := incrementTurn_shape hi
                have hg2 : g2 = g' := by simpa using hb
                subst hg2
                constructor
                · intro _
                  refine ⟨by rw [hshape.1, hturn.1], ?_⟩
                  rw [hshape.2.1, hturn.2]
                · intro hP
                  exact absurd hP hshape.2.2
            · rename_i hcond
              have hg1 : g1 = g' := by simpa using hb
              subst hg1
              have hPr : g1.game_state = GameState.Promote := by
                by_contra hc
                exact hcond hc
              constructor
              · intro hne
                exact absurd hPr hne
              · intro _
                exact hturn.1

/-- The game after the White king's move (0,0) → (1,0) on `gTiny`. -/
def gTinyMoved : Game := ((makeMoveF 2 gTiny (0, 0) (1, 0)).getD (false, gTiny)).2

/-- Witness for C9 at a concrete input: the king move (0,0) → (1,0) on
`gTiny` succeeds. -/
theorem make_move_turn_flip_witness :
    (gTinyMoved.game_state ≠ GameState.Promote →
      gTinyMoved.turn_owner = oppositeColor gTiny.turn_owner ∧
      gTinyMoved.turn_count =
        (if gTinyMoved.turn_owner = Color.White then gTiny.turn_count + 1 else gTiny.turn_count)) ∧
    (gTinyMoved.game_state = GameState.Promote → gTinyMoved.turn_owner = gTiny.turn_owner) :=
  make_move_turn_flip 2 gTiny (0, 0) (1, 0) gTinyMoved (by decide)

theorem isSafePosGo_cons (safe : SafeFn) (g : Game) (col row : Nat) (color : Color)
    (i : Nat) (rest : List Nat) :
    isSafePosGo safe g col row color (i :: rest) =
      match pieceAt g (i % 8) (i >>> 3) with
      | none => isSafePosGo safe g col row color rest
      | some piece =>
        if piece.color = color then isSafePosGo safe g col row color rest
        else
          match getDangerZoneP safe piece (i % 8) (i >>> 3) g with
          | none => none
          | some a =>
            if (col + row * 8) % 256 ∈ a then some false
            else isSafePosGo safe g col row color rest := rfl

theorem isSafePosGo_eq_true_iff (safe : SafeFn) (g : Game) (col row : Nat) (color : Color)
    (l : List Nat) :
    isSafePosGo safe g col row color l = some true ↔
    ∀ i ∈ l, ∀ p, pieceAt g (i % 8) (i >>> 3) = some p → p.color ≠ color →
      ∃ zone, getDangerZoneP safe p (i % 8) (i >>> 3) g = some zone ∧
        (col + row * 8) % 256 ∉ zone := by
  induction l with
  | nil => simp [isSafePosGo]
  | cons i rest ih =>
    rw [isSafePosGo_cons, List.forall_mem_cons]
    cases hp : pieceAt g (i % 8) (i >>> 3) with
    | none => simp [hp, ih]
    | some piece =>
      by_cases hc : piece.color = color
      · simp [hp, hc, ih]
      · cases hz : getDangerZoneP safe piece (i % 8) (i >>> 3) g with
        | none => simp [hp, hc, hz]
        | some a =>
          by_cases hm : (col + row * 8) % 256 ∈ a
          · simp [hp, hc, hz, hm]
          · simp [hp, hc, hz, hm, ih]

/-- Claim C7: `is_safe_position(c, r, C)` returns true whenever `C` is not
the current turn owner (the anti-recursion guard); otherwise it returns
true exactly when no enemy piece's danger zone contains `(c, r)`.  Stated at
every fuel level `fuel + 1`, with the danger zones evaluated at fuel
`fuel`, exactly as the body computes them. -/
theorem is_safe_position_semantics (fuel : Nat) (g : Game) (col row : Nat) (color : Color) :
    (color ≠ g.turn_owner → isSafePositionF (fuel + 1) g col row color = some true) ∧
    (color = g.turn_owner →
      (isSafePositionF (fuel + 1) g col row color = some true ↔
        ∀ i ∈ List.range 64, ∀ p, pieceAt g (i % 8) (i >>> 3) = some p → p.color ≠ color →
          ∃ zone, getDangerZoneF fuel p (i % 8) (i >>> 3) g = some zone ∧
            (col + row * 8) % 256 ∉ zone)) := by
  constructor
  · intro hne
    simp [isSafePositionF, hne]
  · intro heq
    have hstep : isSafePositionF (fuel + 1) g col row color =
        isSafePosGo (isSafePositionF fuel) g col row color (List.range 64) := by
      simp [isSafePositionF, heq]
    rw [hstep, isSafePosGo_eq_true_iff]
    exact Iff.rfl

/-- Witness for C7 at concrete inputs on `gTiny`: the guard branch for a
non-owner colour, and the danger-zone characterisation for the owner's
colour. -/
theorem is_safe_position_semantics_witness :
    isSafePositionF 1 gTiny 0 0 Color.Black = some true ∧
    (isSafePositionF 1 gTiny 0 0 Color.White = some true ↔
      ∀ i ∈ List.range 64, ∀ p, pieceAt gTiny (i % 8) (i >>> 3) = some p →
        p.color ≠ Color.White →
        ∃ zone, getDangerZoneF 0 p (i % 8) (i >>> 3) gTiny = some zone ∧
          (0 + 0 * 8) % 256 ∉ zone) :=
  ⟨(is_safe_position_semantics 0 gTiny 0 0 Color.Black).1 (by decide),
   (is_safe_position_semantics 0 gTiny 0 0 Color.White).2 (by decide)⟩

theorem isSafePositionF_nonowner (fuel : Nat) (g : Game) (c r : Nat) (color : Color)
    (h : color ≠ g.turn_owner) :
    isSafePositionF fuel g c r color = none ∨ isSafePositionF fuel g c r color = some true := by
  cases fuel with
  | zero => exact Or.inl rfl
  | succ n => right; simp [isSafePositionF, h]

theorem isSafeMoveGo_cons (safe : SafeFn) (gc : Game) (color : Color) (i : Nat)
    (p : Option Piece) (rest : List (Option Piece)) :
    isSafeMoveGo safe gc color i (p :: rest) =
      match p with
      | some piece =>
        if piece.is_crucial ∧ piece.color = color then
          match safe gc (i % 8) (i >>> 3) color with
          | none => none
          | some s => if ¬ s then some false else isSafeMoveGo safe gc color (i + 1) rest
        else isSafeMoveGo safe gc color (i + 1) rest
      | none => isSafeMoveGo safe gc color (i + 1) rest := rfl

theorem isSafeMoveGo_none_or_true (fuel : Nat) (gc : Game) (color : Color)
    (h : color ≠ gc.turn_owner) (i : Nat) (l : List (Option Piece)) :
    isSafeMoveGo (isSafePositionF fuel) gc color i l = none ∨
    isSafeMoveGo (isSafePositionF fuel) gc color i l = some true := by
  induction l generalizing i with
  | nil => exact Or.inr rfl
  | cons p rest ih =>
    rw [isSafeMoveGo_cons]
    cases p with
    | none => exact ih (i + 1)
    | some piece =>
      by_cases hcc : piece.is_crucial ∧ piece.color = color
      · simp only [hcc, if_true]
        rcases isSafePositionF_nonowner fuel gc (i % 8) (i >>> 3) color h with ho | ho <;> rw [ho]
        · exact Or.inl rfl
        · simpa using ih (i + 1)
      · simp only [hcc, if_false]
        exact ih (i + 1)

theorem isSafeMoveF_none_or_true (fuel : Nat) (g : Game) (f t : Nat × Nat)
    (effects : List Effect) (color : Color) (h : color ≠ g.turn_owner) :
    isSafeMoveF fuel g f t effects color = none ∨
    isSafeMoveF fuel g f t effects color = some true := by
  unfold isSafeMoveF
  cases he : justExecuteMove g f t effects with
  | none => exact Or.inl rfl
  | some gc =>
    have hp := justExecuteMove_preserves_turn he
    exact isSafeMoveGo_none_or_true fuel gc color (by rw [hp.1]; exact h) 0 gc.board

/-- The union of a piece's template prune results WITHOUT the king-safety
filter, as described by claim C10 ("the union of the piece's template prune
results"): same folds as `all_possible_moves`, minus the `is_safe_move`
test.  Comparison object for the refinement theorem, not a source
function. -/
def apmBatchAll (all : MoveMap) : List (Nat × List Effect) → MoveMap
  | [] => all
  | (key, val) :: rest => apmBatchAll (mapInsert all key val) rest

/-- Template fold of the unfiltered union (claim-side definition). -/
def apmMovesAll (fuel : Nat) (game : Game) (col row : Nat) (all : MoveMap) :
    List Move → Option MoveMap
  | [] => some all
  | m :: rest =>
    match pruneF fuel m game (col, row) with
    | none => none
    | some batch => apmMovesAll fuel game col row (apmBatchAll all batch) rest

/-- The unfiltered union of all templates' prune results (claim-side
definition for C10). -/
def allMovesUnfiltered (fuel : Nat) (p : Piece) (col row : Nat) (game : Game) :
    Option MoveMap :=
  apmMovesAll fuel game col row [] p.moves

theorem apmBatchGo_cons (fuel : Nat) (g : Game) (color : Color) (col row : Nat)
    (all : MoveMap) (key : Nat) (val : List Effect) (rest : List (Nat × List Effect)) :
    apmBatchGo fuel g color col row all ((key, val) :: rest) =
      match isSafeMoveF fuel g (col, row) (key % 8, key >>> 3) val color with
      | none => none
      | some s => apmBatchGo fuel g color col row (if s then mapInsert all key val else all) rest := rfl

theorem apmBatchAll_cons (all : MoveMap) (key : Nat) (val : List Effect)
    (rest : List (Nat × List Effect)) :
    apmBatchAll all ((key, val) :: rest) = apmBatchAll (mapInsert all key val) rest := rfl

theorem apmBatchGo_nonowner (fuel : Nat) (g : Game) (color : Color) (col row : Nat)
    (h : color ≠ g.turn_owner) (all : MoveMap) (batch : List (Nat × List Effect)) :
    apmBatchGo fuel g color col row all batch = none ∨
    apmBatchGo fuel g color col row all batch = some (apmBatchAll all batch) := by
  induction batch generalizing all with
  | nil => exact Or.inr rfl
  | cons kv rest ih =>
    obtain ⟨key, val⟩ := kv
    rw [apmBatchGo_cons, apmBatchAll_cons]
    rcases isSafeMoveF_none_or_true fuel g (col, row) (key % 8, key >>> 3) val color h with hs | hs <;> rw [hs]
    · exact Or.inl rfl
    · simpa using ih (mapInsert all key val)

theorem apmMovesGo_cons (fuel : Nat) (g : Game) (color : Color) (col row : Nat)
    (all : MoveMap) (m : Move) (rest : List Move) :
    apmMovesGo fuel g color col row all (m :: rest) =
      match pruneF fuel m g (col, row) with
      | none => none
      | some batch =>
        match apmBatchGo fuel g color col row all batch with
        | none => none
        | some all2 => apmMovesGo fuel g color col row all2 rest := rfl

theorem apmMovesAll_cons (fuel : Nat) (g : Game) (col row : Nat)
    (all : MoveMap) (m : Move) (rest : List Move) :
    apmMovesAll fuel g col row all (m :: rest) =
      match pruneF fuel m g (col, row) with
      | none => none
      | some batch => apmMovesAll fuel g col row (apmBatchAll all batch) rest := rfl

theorem apmMovesGo_nonowner (fuel : Nat) (g : Game) (color : Color) (col row : Nat)
    (h : color ≠ g.turn_owner) (all : MoveMap) (ms : List Move) :
    apmMovesGo fuel g color col row all ms = none ∨
    apmMovesGo fuel g color col row all ms = apmMovesAll fuel g col row all ms := by
  induction ms generalizing all with
  | nil => exact Or.inr rfl
  | cons m rest ih =>
    rw [apmMovesGo_cons, apmMovesAll_cons]
    cases hpr : pruneF fuel m g (col, row) with
    | none => exact Or.inl rfl
    | some batch =>
      dsimp only
      rcases apmBatchGo_nonowner fuel g color col row h all batch with hb | hb <;> rw [hb]
      · exact Or.inl rfl
      · exact ih (apmBatchAll all batch)

/-- Claim C10: for a piece whose colour is not the current turn owner, the
king-safety filter discards no entry: whenever `get_moves` finishes it
returns exactly the unfiltered union of the piece's template prune results
(the simulation never flips the turn owner, so `is_safe_position` returns
true for every non-owner colour).  The `none` disjunct covers runs whose
simulation aborts. -/
theorem get_moves_nonowner_is_unfiltered_union (fuel : Nat) (g : Game) (col row : Nat)
    (p : Piece) (hp : pieceAt g col row = some p) (hc : p.color ≠ g.turn_owner) :
    getMovesF fuel g col row = none ∨
    getMovesF fuel g col row = (allMovesUnfiltered fuel p col row g).map some := by
  unfold getMovesF
  rw [hp]
  dsimp only
  unfold allPossibleMovesF allMovesUnfiltered
  rcases apmMovesGo_nonowner fuel g p.color col row hc [] p.moves with hm | hm <;> rw [hm]
  · exact Or.inl rfl
  · cases ha : apmMovesAll fuel g col row [] p.moves with
    | none => exact Or.inl rfl
    | some m => exact Or.inr rfl

/-- Witness for C10 at a concrete input: the Black king on `gTiny` while
White owns the turn. -/
theorem get_moves_nonowner_witness :
    getMovesF 1 gTiny 7 7 = none ∨
    getMovesF 1 gTiny 7 7 = (allMovesUnfiltered 1 (newKing Color.Black) 7 7 gTiny).map some :=
  get_moves_nonowner_is_unfiltered_union 1 gTiny 7 7 (newKing Color.Black) (by decide) (by decide)

/-- Agreement of two games on everything the move generator reads: board,
turn owner and turn counter (the game state is never consulted by it). -/
def sameMod (g g' : Game) : Prop :=
  g.board = g'.board ∧ g.turn_owner = g'.turn_owner ∧ g.turn_count = g'.turn_count

theorem pieceAt_sameMod {g g' : Game} (hS : sameMod g g') (c r : Nat) :
    pieceAt g c r = pieceAt g' c r := by
  unfold pieceAt
  rw [hS.1]

theorem checkPieceStatus_sameMod {g g' : Game} (hS : sameMod g g') (p : Option Piece)
    (st : PieceStatus) : checkPieceStatus p st g = checkPieceStatus p st g' := by
  unfold checkPieceStatus
  rw [hS.2.1, hS.2.2]

theorem checkConditions_sameMod {g g' : Game} (hS : sameMod g g') (pos : Nat × Nat)
    (cs : List PieceStatus) (mir : Option Mirror) :
    checkConditions g pos cs mir = checkConditions g' pos cs mir := by
  cases cs with
  | nil => rfl
  | cons con rest =>
    unfold checkConditions
    simp only [pieceAt_sameMod hS, checkPieceStatus_sameMod hS]

theorem pruneDirGo_cons (safe : SafeFn) (p_col p_row : Nat) (d_col d_row : Int) (min_s : Nat)
    (can_capture : Bool) (color : Color) (game : Game) (st : Bool) (i : Nat) (rest : List Nat)
    (r : List Nat) :
    pruneDirGo safe p_col p_row d_col d_row min_s can_capture color game st (i :: rest) r =
      (let col : Int := i8OfU8 p_col + i8OfU8 i * d_col
       let row : Int := i8OfU8 p_row + i8OfU8 i * d_row
       if col < 0 ∨ row < 0 ∨ 8 ≤ col ∨ 8 ≤ row then some r
       else
         match (if st then safe game col.toNat row.toNat color else some true) with
         | none => none
         | some s =>
           if ¬ s then some r
           else
             match pieceAt game col.toNat row.toNat with
             | none =>
               pruneDirGo safe p_col p_row d_col d_row min_s can_capture color game st
                 rest (if min_s ≤ i then r ++ [col.toNat + row.toNat * 8] else r)
             | some piece =>
               let r2 := if ((can_capture ∧ piece.color ≠ color) ∨ i = 0) ∧ min_s ≤ i
                 then r ++ [col.toNat + row.toNat * 8] else r
               if 0 < i then some r2
               else pruneDirGo safe p_col p_row d_col d_row min_s can_capture color game st
                 rest r2) := rfl

theorem pruneDirGo_sameMod {g g' : Game} (hS : sameMod g g') (safe : SafeFn)
    (hso : ∀ c r col, safe g c r col = safe g' c r col)
    (p_col p_row : Nat) (d_col d_row : Int) (min_s : Nat) (can_capture : Bool) (color : Color)
    (st : Bool) (l : List Nat) (acc : List Nat) :
    pruneDirGo safe p_col p_row d_col d_row min_s can_capture color g st l acc =
    pruneDirGo safe p_col p_row d_col d_row min_s can_capture color g' st l acc := by
  induction l generalizing acc with
  | nil => rfl
  | cons i rest ih =>
    rw [pruneDirGo_cons, pruneDirGo_cons]
    simp only [hso, pieceAt_sameMod hS, ih]

theorem pruneDirP_sameMod {g g' : Game} (hS : sameMod g g') (safe : SafeFn)
    (hso : ∀ c r col, safe g c r col = safe g' c r col)
    (p_col p_row : Nat) (d_col d_row : Int) (min_s max_s : Nat) (can_capture : Bool)
    (color : Color) (st : Bool) :
    pruneDirP safe p_col p_row d_col d_row min_s max_s can_capture color g st =
    pruneDirP safe p_col p_row d_col d_row min_s max_s can_capture color g' st := by
  unfold pruneDirP
  exact pruneDirGo_sameMod hS safe hso p_col p_row d_col d_row min_s can_capture color st _ _

theorem pruneVariant_sameMod {g g' : Game} (hS : sameMod g g') (safe : SafeFn)
    (hso : ∀ c r col, safe g c r col = safe g' c r col)
    (m : Move) (pos : Nat × Nat) (max_s : Nat) (d_col d_row : Int) (valid : MoveMap)
    (mir : Option Mirror) :
    pruneVariant safe m g pos max_s d_col d_row valid mir =
    pruneVariant safe m g' pos max_s d_col d_row valid mir := by
  unfold pruneVariant
  rw [checkConditions_sameMod hS, pruneDirP_sameMod hS safe hso]

theorem pruneDirection_sameMod {g g' : Game} (hS : sameMod g g') (safe : SafeFn)
    (hso : ∀ c r col, safe g c r col = safe g' c r col)
    (m : Move) (pos : Nat × Nat) (max_s : Nat) (di : Int × Int) (valid : MoveMap) :
    pruneDirection safe m g pos max_s di valid =
    pruneDirection safe m g' pos max_s di valid := by
  unfold pruneDirection
  simp only [pruneVariant_sameMod hS safe hso]

theorem prunePGo_cons (safe : SafeFn) (m : Move) (game : Game) (pos : Nat × Nat)
    (max_s : Nat) (di : Int × Int) (rest : List (Int × Int)) (valid : MoveMap) :
    prunePGo safe m game pos max_s (di :: rest) valid =
      match pruneDirection safe m game pos max_s di valid with
      | none => none
      | some v => prunePGo safe m game pos max_s rest v := rfl

theorem prunePGo_sameMod {g g' : Game} (hS : sameMod g g') (safe : SafeFn)
    (hso : ∀ c r col, safe g c r col = safe g' c r col)
    (m : Move) (pos : Nat × Nat) (max_s : Nat) (ds : List (Int × Int)) (valid : MoveMap) :
    prunePGo safe m g pos max_s ds valid = prunePGo safe m g' pos max_s ds valid := by
  induction ds generalizing valid with
  | nil => rfl
  | cons di rest ih =>
    rw [prunePGo_cons, prunePGo_cons, pruneDirection_sameMod hS safe hso]
    cases pruneDirection safe m g' pos max_s di valid with
    | none => rfl
    | some v => exact ih v

theorem pruneP_sameMod {g g' : Game} (hS : sameMod g g') (safe : SafeFn)
    (hso : ∀ c r col, safe g c r col = safe g' c r col)
    (m : Move) (pos : Nat × Nat) :
    pruneP safe m g pos = pruneP safe m g' pos := by
  unfold pruneP
  rw [hso]
  cases (if m.safe_throughout then safe g' pos.1 pos.2 m.color else some false) with
  | none => rfl
  | some stop =>
    dsimp only
    rw [prunePGo_sameMod hS safe hso]

theorem dzMovesGo_cons (safe : SafeFn) (game : Game) (col row : Nat) (all : List Nat)
    (m : Move) (rest : List Move) :
    dzMovesGo safe game col row all (m :: rest) =
      (if ¬ m.can_capture ∧ ¬ (m.effect.any fun e => match e with
          | Effect.Capture _ => true
          | _ => false) then dzMovesGo safe game col row all rest
       else
         match pruneP safe m game (col, row) with
         | none => none
         | some batch => dzMovesGo safe game col row (dzBatchGo m col row all batch) rest) := rfl

theorem dzMovesGo_sameMod {g g' : Game} (hS : sameMod g g') (safe : SafeFn)
    (hso : ∀ c r col, safe g c r col = safe g' c r col)
    (col row : Nat) (all : List Nat) (ms : List Move) :
    dzMovesGo safe g col row all ms = dzMovesGo safe g' col row all ms := by
  induction ms generalizing all with
  | nil => rfl
  | cons m rest ih =>
    rw [dzMovesGo_cons, dzMovesGo_cons, pruneP_sameMod hS safe hso]
    split
    · exact ih all
    · cases pruneP safe m g' (col, row) with
      | none => rfl
      | some batch => exact ih (dzBatchGo m col row all batch)

theorem getDangerZoneP_sameMod {g g' : Game} (hS : sameMod g g') (safe : SafeFn)
    (hso : ∀ c r col, safe g c r col = safe g' c r col)
    (p : Piece) (col row : Nat) :
    getDangerZoneP safe p col row g = getDangerZoneP safe p col row g' :=
  dzMovesGo_sameMod hS safe hso col row [] p.moves

theorem isSafePosGo_sameMod {g g' : Game} (hS : sameMod g g') (safe : SafeFn)
    (hso : ∀ c r col, safe g c r col = safe g' c r col)
    (col row : Nat) (color : Color) (l : List Nat) :
    isSafePosGo safe g col row color l = isSafePosGo safe g' col row color l := by
  induction l with
  | nil => rfl
  | cons i rest ih =>
    rw [isSafePosGo_cons, isSafePosGo_cons, ← pieceAt_sameMod hS]
    cases pieceAt g (i % 8) (i >>> 3) with
    | none => exact ih
    | some piece =>
      dsimp only
      split
      · exact ih
      · rw [← getDangerZoneP_sameMod hS safe hso]
        cases getDangerZoneP safe piece (i % 8) (i >>> 3) g with
        | none => rfl
        | some a =>
          dsimp only
          split
          · rfl
          · exact ih

theorem isSafePositionF_succ (n : Nat) (g : Game) (c r : Nat) (col : Color) :
    isSafePositionF (n + 1) g c r col =
      if col ≠ g.turn_owner then some true
      else isSafePosGo (isSafePositionF n) g c r col (List.range 64) := rfl

theorem isSafePositionF_sameMod {g g' : Game} (hS : sameMod g g') (fuel : Nat) :
    ∀ c r col, isSafePositionF fuel g c r col = isSafePositionF fuel g' c r col := by
  induction fuel with
  | zero => intro c r col; rfl
  | succ n ih =>
    intro c r col
    rw [isSafePositionF_succ, isSafePositionF_succ, hS.2.1]
    split
    · rfl
    · exact isSafePosGo_sameMod hS (isSafePositionF n) (fun c r col => ih c r col) c r col _

/-- `sameMod` lifted to the `Option Game` results of the mutators. -/
def optSameMod : Option Game → Option Game → Prop
  | none, none => True
  | some a, some b => sameMod a b
  | _, _ => False

theorem justMove_sameMod {g g' : Game} (hS : sameMod g g') (f t : Nat × Nat) :
    optSameMod (justMove g f t) (justMove g' f t) := by
  unfold justMove
  dsimp only
  rw [hS.1, hS.2.1, hS.2.2]
  cases g'.board[(f.1 + f.2 * 8) % 256]? with
  | none => trivial
  | some op =>
    cases op with
    | none => trivial
    | some piece =>
      dsimp only
      split
      · split <;> exact ⟨by simp [hS.1], by simp [hS.2.1], by simp [hS.2.2]⟩
      · trivial

theorem capture_sameMod {g g' : Game} (hS : sameMod g g') (pos : Nat × Nat) :
    optSameMod (capture g pos) (capture g' pos) := by
  unfold capture
  dsimp only
  rw [hS.1, hS.2.1, hS.2.2]
  split
  · exact ⟨rfl, rfl, rfl⟩
  · trivial

theorem applyEffectsGo_sameMod {g g' : Game} (hS : sameMod g g') (f : Nat × Nat)
    (es : List Effect) : optSameMod (applyEffectsGo f g es) (applyEffectsGo f g' es) := by
  induction es generalizing g g' with
  | nil => exact hS
  | cons e rest ih =>
    rw [applyEffectsGo_cons, applyEffectsGo_cons]
    have hrel : optSameMod
        (match e with
         | Effect.Capture p => capture g (position p f)
         | Effect.Move p1 p2 => justMove g (position p1 f) (position p2 f))
        (match e with
         | Effect.Capture p => capture g' (position p f)
         | Effect.Move p1 p2 => justMove g' (position p1 f) (position p2 f)) := by
      cases e with
      | Capture p => exact capture_sameMod hS (position p f)
      | Move p1 p2 => exact justMove_sameMod hS (position p1 f) (position p2 f)
    cases hm : (match e with
         | Effect.Capture p => capture g (position p f)
         | Effect.Move p1 p2 => justMove g (position p1 f) (position p2 f)) with
    | none =>
      cases hm' : (match e with
           | Effect.Capture p => capture g' (position p f)
           | Effect.Move p1 p2 => justMove g' (position p1 f) (position p2 f)) with
      | none => trivial
      | some gb => rw [hm, hm'] at hrel; exact absurd hrel (by simp [optSameMod])
    | some ga =>
      cases hm' : (match e with
           | Effect.Capture p => capture g' (position p f)
           | Effect.Move p1 p2 => justMove g' (position p1 f) (position p2 f)) with
      | none => rw [hm, hm'] at hrel; exact absurd hrel (by simp [optSameMod])
      | some gb =>
        rw [hm, hm'] at hrel
        exact ih hrel

theorem justExecuteMove_sameMod {g g' : Game} (hS : sameMod g g') (f t : Nat × Nat)
    (es : List Effect) :
    optSameMod (justExecuteMove g f t es) (justExecuteMove g' f t es) := by
  unfold justExecuteMove
  have hrel := justMove_sameMod hS f t
  cases hm : justMove g f t with
  | none =>
    cases hm' : justMove g' f t with
    | none => trivial
    | some gb => rw [hm, hm'] at hrel; exact absurd hrel (by simp [optSameMod])
  | some ga =>
    cases hm' : justMove g' f t with
    | none => rw [hm, hm'] at hrel; exact absurd hrel (by simp [optSameMod])
    | some gb =>
      rw [hm, hm'] at hrel
      exact applyEffectsGo_sameMod hrel f es

theorem isSafeMoveGo_cong {gc gc' : Game} (safe : SafeFn)
    (hso : ∀ c r col, safe gc c r col = safe gc' c r col) (color : Color) :
    ∀ i l, isSafeMoveGo safe gc color i l = isSafeMoveGo safe gc' color i l := by
  intro i l
  induction l generalizing i with
  | nil => rfl
  | cons p rest ih =>
    rw [isSafeMoveGo_cons, isSafeMoveGo_cons]
    cases p with
    | none => exact ih (i + 1)
    | some piece =>
      dsimp only
      split
      · rw [hso]
        cases safe gc' (i % 8) (i >>> 3) color with
        | none => rfl
        | some s =>
          dsimp only
          split
          · rfl
          · exact ih (i + 1)
      · exact ih (i + 1)

theorem isSafeMoveF_sameMod {g g' : Game} (hS : sameMod g g') (fuel : Nat) (f t : Nat × Nat)
    (es : List Effect) (color : Color) :
    isSafeMoveF fuel g f t es color = isSafeMoveF fuel g' f t es color := by
  unfold isSafeMoveF
  have hrel := justExecuteMove_sameMod hS f t es
  cases hm : justExecuteMove g f t es with
  | none =>
    cases hm' : justExecuteMove g' f t es with
    | none => rfl
    | some gb => rw [hm, hm'] at hrel; exact absurd hrel (by simp [optSameMod])
  | some ga =>
    cases hm' : justExecuteMove g' f t es with
    | none => rw [hm, hm'] at hrel; exact absurd hrel (by simp [optSameMod])
    | some gb =>
      rw [hm, hm'] at hrel
      have hb : ga.board = gb.board := hrel.1
      dsimp only
      rw [hb]
      exact isSafeMoveGo_cong (isSafePositionF fuel)
        (fun c r col => isSafePositionF_sameMod hrel fuel c r col) color 0 gb.board

theorem apmBatchGo_sameMod {g g' : Game} (hS : sameMod g g') (fuel : Nat) (color : Color)
    (col row : Nat) (all : MoveMap) (batch : List (Nat × List Effect)) :
    apmBatchGo fuel g color col row all batch = apmBatchGo fuel g' color col row all batch := by
  induction batch generalizing all with
  | nil => rfl
  | cons kv rest ih =>
    obtain ⟨key, val⟩ := kv
    rw [apmBatchGo_cons, apmBatchGo_cons, isSafeMoveF_sameMod hS]
    cases isSafeMoveF fuel g' (col, row) (key % 8, key >>> 3) val color with
    | none => rfl
    | some s => exact ih (if s then mapInsert all key val else all)

theorem apmMovesGo_sameMod {g g' : Game} (hS : sameMod g g') (fuel : Nat) (color : Color)
    (col row : Nat) (all : MoveMap) (ms : List Move) :
    apmMovesGo fuel g color col row all ms = apmMovesGo fuel g' color col row all ms := by
  induction ms generalizing all with
  | nil => rfl
  | cons m rest ih =>
    rw [apmMovesGo_cons, apmMovesGo_cons]
    have hpr : pruneF fuel m g (col, row) = pruneF fuel m g' (col, row) :=
      pruneP_sameMod hS (isSafePositionF fuel)
        (fun c r cc => isSafePositionF_sameMod hS fuel c r cc) m (col, row)
    rw [hpr]
    cases pruneF fuel m g' (col, row) with
    | none => rfl
    | some batch =>
      dsimp only
      rw [apmBatchGo_sameMod hS]
      cases apmBatchGo fuel g' color col row all batch with
      | none => rfl
      | some all2 => exact ih all2

theorem getMovesF_sameMod {g g' : Game} (hS : sameMod g g') (fuel : Nat) (col row : Nat) :
    getMovesF fuel g col row = getMovesF fuel g' col row := by
  unfold getMovesF allPossibleMovesF
  rw [pieceAt_sameMod hS]
  cases pieceAt g' col row with
  | none => rfl
  | some p =>
    dsimp only
    rw [apmMovesGo_sameMod hS]

theorem hasMovesGo_cons (fuel : Nat) (g : Game) (i : Nat) (rest : List Nat) :
    hasMovesGo fuel g (i :: rest) =
      match pieceAt g (i % 8) (i >>> 3) with
      | none => hasMovesGo fuel g rest
      | some p =>
        if p.color ≠ g.turn_owner then hasMovesGo fuel g rest
        else
          match getMovesF fuel g (i % 8) (i >>> 3) with
          | none => none
          | some (some m) => if m.length > 0 then some true else hasMovesGo fuel g rest
          | some none => hasMovesGo fuel g rest := rfl

theorem hasMovesGo_sameMod {g g' : Game} (hS : sameMod g g') (fuel : Nat) (l : List Nat) :
    hasMovesGo fuel g l = hasMovesGo fuel g' l := by
  induction l with
  | nil => rfl
  | cons i rest ih =>
    rw [hasMovesGo_cons, hasMovesGo_cons, pieceAt_sameMod hS, hS.2.1,
      getMovesF_sameMod hS]
    cases pieceAt g' (i % 8) (i >>> 3) with
    | none => exact ih
    | some p =>
      dsimp only
      split
      · exact ih
      · cases getMovesF fuel g' (i % 8) (i >>> 3) with
        | none => rfl
        | some om =>
          cases om with
          | none => exact ih
          | some m =>
            dsimp only
            split
            · rfl
            · exact ih

theorem hasMovesF_sameMod (g g' : Game) (hS : sameMod g g') (fuel : Nat) :
    hasMovesF fuel g = hasMovesF fuel g' :=
  hasMovesGo_sameMod hS fuel (List.range 64)

theorem inCheckGo_cons (fuel : Nat) (g : Game) (i : Nat) (rest : List Nat) :
    inCheckGo fuel g (i :: rest) =
      match pieceAt g (i % 8) (i >>> 3) with
      | none => inCheckGo fuel g rest
      | some p =>
        if p.is_crucial ∧ p.color = g.turn_owner then
          match isSafePositionF fuel g (i % 8) (i >>> 3) p.color with
          | none => none
          | some s => if ¬ s then some true else inCheckGo fuel g rest
        else inCheckGo fuel g rest := rfl

theorem inCheckGo_sameMod {g g' : Game} (hS : sameMod g g') (fuel : Nat) (l : List Nat) :
    inCheckGo fuel g l = inCheckGo fuel g' l := by
  induction l with
  | nil => rfl
  | cons i rest ih =>
    rw [inCheckGo_cons, inCheckGo_cons, pieceAt_sameMod hS, hS.2.1]
    cases pieceAt g' (i % 8) (i >>> 3) with
    | none => exact ih
    | some p =>
      dsimp only
      split
      · rw [isSafePositionF_sameMod hS]
        cases isSafePositionF fuel g' (i % 8) (i >>> 3) p.color with
        | none => rfl
        | some s =>
          dsimp only
          split
          · rfl
          · exact ih
      · exact ih

theorem inCheckF_sameMod (g g' : Game) (hS : sameMod g g') (fuel : Nat) :
    inCheckF fuel g = inCheckF fuel g' :=
  inCheckGo_sameMod hS fuel (List.range 64)

theorem incrementTurn_terminal {fuel : Nat} {g g2 : Game}
    (h : incrementTurnF fuel g = some g2) :
    (g2.game_state = GameState.CheckMate →
      hasMovesF fuel g2 = some false ∧ inCheckF fuel g2 = some true) ∧
    (g2.game_state = GameState.Stalemate →
      hasMovesF fuel g2 = some false ∧ inCheckF fuel g2 = some false) := by
  unfold incrementTurnF at h
  dsimp only at h
  rcases hc : inCheckF fuel (flipOwner g) with _ | c <;> rw [hc] at h
  · simp at h
  · dsimp only at h
    cases c with
    | true =>
      rw [if_pos rfl] at h
      rcases hm : hasMovesF fuel { flipOwner g with game_state := GameState.Check }
          with _ | b <;> rw [hm] at h
      · simp at h
      · cases b with
        | true =>
          simp at h
          cases h
          exact ⟨fun hgs => by simp at hgs, fun hgs => by simp at hgs⟩
        | false =>
          simp at h
          cases h
          refine ⟨fun _ => ⟨?_, ?_⟩, fun hgs => by simp at hgs⟩
          · exact (hasMovesF_sameMod
              { flipOwner g with game_state := GameState.CheckMate }
              { flipOwner g with game_state := GameState.Check }
              ⟨rfl, rfl, rfl⟩ fuel).trans hm
          · exact (inCheckF_sameMod
              { flipOwner g with game_state := GameState.CheckMate }
              (flipOwner g) ⟨rfl, rfl, rfl⟩ fuel).trans hc
    | false =>
      simp only [if_neg (by simp : ¬ (false = true))] at h
      rcases hm : hasMovesF fuel { flipOwner g with game_state := GameState.Running }
          with _ | b <;> rw [hm] at h
      · simp at h
      · cases b with
        | true =>
          simp at h
          cases h
          exact ⟨fun hgs => by simp at hgs, fun hgs => by simp at hgs⟩
        | false =>
          simp at h
          cases h
          refine ⟨fun hgs => by simp at hgs, fun _ => ⟨?_, ?_⟩⟩
          · exact (hasMovesF_sameMod
              { flipOwner g with game_state := GameState.Stalemate }
              { flipOwner g with game_state := GameState.Running }
              ⟨rfl, rfl, rfl⟩ fuel).trans hm
          · exact (inCheckF_sameMod
              { flipOwner g with game_state := GameState.Stalemate }
              (flipOwner g) ⟨rfl, rfl, rfl⟩ fuel).trans hc

theorem gameNew_state {g0 : Game} (h : gameNew = some g0) :
    g0.game_state = GameState.Running := by
  unfold gameNew at h
  split at h
  · injection h with h2
    subst h2
    rfl
  · simp at h

theorem makeMove_true_promote_or_inc {fuel : Nat} {g : Game} {f t : Nat × Nat} {g' : Game}
    (h : makeMoveF fuel g f t = some (true, g')) :
    g'.game_state = GameState.Promote ∨ ∃ g1, incrementTurnF fuel g1 = some g' := by
  unfold makeMoveF at h
  have hb : makeMoveBody fuel g f t = some (true, g') := by
    split at h
    · exact h
    · exact h
    · exact absurd h (by simp)
  clear h
  unfold makeMoveBody at hb
  rcases hp : pieceAt g f.1 f.2 with _ | piece <;> rw [hp] at hb <;> dsimp only at hb
  · simp at hb
  · split at hb
    · simp at hb
    · rcases ha : allPossibleMovesF fuel piece f.1 f.2 g with _ | mv <;> rw [ha] at hb <;> dsimp only at hb
      · simp at hb
      · rcases hg : mapGet mv ((t.1 + t.2 * 8) % 256) with _ | effects <;> rw [hg] at hb <;> dsimp only at hb
        · simp at hb
        · rcases he : justExecuteMove g f t effects with _ | g1 <;> rw [he] at hb <;> dsimp only at hb
          · simp at hb
          · split at hb
            · rcases hi : incrementTurnF fuel g1 with _ | g2 <;> rw [hi] at hb <;> dsimp only at hb
              · simp at hb
              · have hg2 : g2 = g' := by simpa using hb
                subst hg2
                exact Or.inr ⟨g1, hi⟩
            · rename_i hcond
              have hg1 : g1 = g' := by simpa using hb
              subst hg1
              left
              by_contra hc
              exact hcond hc

theorem promote_true_promote_or_inc {fuel : Nat} {g : Game} {pos : Nat × Nat} {rank : Char}
    {g' : Game} (h : promoteF fuel g pos rank = some (true, g')) :
    g'.game_state = GameState.Promote ∨ ∃ g1, incrementTurnF fuel g1 = some g' := by
  unfold promoteF at h
  split at h
  · simp at h
  · rename_i hstate
    rcases hp : pieceAt g pos.1 pos.2 with _ | p <;> rw [hp] at h <;> dsimp only at h
    · simp at h
    · split at h
      · simp at h
      · split at h
        · simp at h
        · rcases hn : pieceNew p.color rank with _ | tp <;> rw [hn] at h <;> dsimp only at h
          · simp at h
          · split at h
            · simp at h
            · split at h
              · split at h
                · simp at h
                · rename_i g2 hi
                  have hg2 : g2 = g' := by simpa using h
                  subst hg2
                  exact Or.inr ⟨_, hi⟩
              · injection h with h1
                injection h1 with _ h2
                subst h2
                left
                exact not_not.mp hstate

/-- Games reachable through the public API: the standard starting position,
closed under successful `make_move` and successful `promote` (rejected calls
leave the game unchanged, see C5, so they add nothing to the set). -/
inductive ReachableF (fuel : Nat) : Game → Prop where
  | init : ∀ g, gameNew = some g → ReachableF fuel g
  | move : ∀ g f t g', ReachableF fuel g → makeMoveF fuel g f t = some (true, g') →
      ReachableF fuel g'
  | promo : ∀ g pos rank g', ReachableF fuel g → promoteF fuel g pos rank = some (true, g') →
      ReachableF fuel g'

/-- Claim C8: for every reachable game, `CheckMate` implies the turn owner
has zero legal moves and its crucial piece is attacked (`in_check`), and
`Stalemate` implies zero legal moves with the crucial piece not attacked.
Both terminal states are only ever produced by `increment_turn`, whose
classification is computed from exactly these two predicates, and the
predicates ignore `game_state`, so they still hold of the resulting game. -/
theorem reachable_terminal_states (fuel : Nat) (g : Game) (hr : ReachableF fuel g) :
    (g.game_state = GameState.CheckMate →
      hasMovesF fuel g = some false ∧ inCheckF fuel g = some true) ∧
    (g.game_state = GameState.Stalemate →
      hasMovesF fuel g = some false ∧ inCheckF fuel g = some false) := by
  induction hr with
  | init g0 h0 =>
    have hs := gameNew_state h0
    constructor <;> (intro hgs; rw [hs] at hgs; exact absurd hgs (by decide))
  | move g1 f t g' hr1 hmk ih =>
    rcases makeMove_true_promote_or_inc hmk with hP | ⟨gm, hi⟩
    · constructor <;> (intro hgs; rw [hP] at hgs; exact absurd hgs (by decide))
    · exact incrementTurn_terminal hi
  | promo g1 pos rank g' hr1 hpr ih =>
    rcases promote_true_promote_or_inc hpr with hP | ⟨gm, hi⟩
    · constructor <;> (intro hgs; rw [hP] at hgs; exact absurd hgs (by decide))
    · exact incrementTurn_terminal hi

/-- The standard starting position as a concrete `Game` value. -/
def gameStart : Game := (gameNew).getD gEmpty

/-- Witness for C8 at a concrete reachable game: the starting position. -/
theorem reachable_terminal_states_witness :
    (gameStart.game_state = GameState.CheckMate →
      hasMovesF 2 gameStart = some false ∧ inCheckF 2 gameStart = some true) ∧
    (gameStart.game_state = GameState.Stalemate →
      hasMovesF 2 gameStart = some false ∧ inCheckF 2 gameStart = some false) :=
  reachable_terminal_states 2 gameStart (ReachableF.init gameStart (by decide))

end Chess
